import Mathlib

/-!
# Subscription-lifecycle guard of AngularApolloGraphQL — shallow embedding

This file embeds the subscription-handling logic of the repository
(`planet.component.ts`, `hero-detail.component.ts`,
`planet-repository.service.ts`, `hero-repository.service.ts`, `model.ts`)
as executable Lean definitions and proves the spec's testable properties
about them.

The reactive layer is modelled by an explicit event trace: a
`List (Event α)` records, in delivery order on the single logical event
loop, the emissions of the underlying push source interleaved with the
firings of the Owner's termination subject (`destroy$.next()`).  A
subscription built by `.pipe(take(1), takeUntil(destroy$)).subscribe(...)`
is a small state machine (`GuardedSub`) folded over the trace; its
`delivered` field is the list of values that reached the subscriber.
-/

/-! ## Data model (`model.ts`) -/

/-- `Planet` from `model.ts` (the variant used by the repository services and
components: `name`, `avgTemp`, `habitable`, all strings). -/
structure Planet where
  name : String
  avgTemp : String
  habitable : String
deriving DecidableEq, Repr

/-- The `'Good Guy' | 'Bad Guy'` union type of `Hero.type` in `model.ts`. -/
inductive HeroType where
  | goodGuy
  | badGuy
deriving DecidableEq, Repr

/-- `Hero` from `model.ts`: `name`, `type`, `planet`, and a nullable list of
allies (`Hero[] | null`). -/
inductive Hero where
  | mk : String → HeroType → Planet → Option (List Hero) → Hero

/-! ## Provider emissions and the repository services

An emission of the Apollo client's `valueChanges` / `mutate` push source
carries a nullable `data` field; `none` models the transitional
"no data yet" value (`null`/`undefined`). -/

/-- One emission of the Data Source Provider's push source. -/
structure ProviderResult (β : Type) where
  data : Option β
deriving DecidableEq, Repr

/-- The unchecked TypeScript cast `result.data as T`, applied after the
null-filter: reads the payload out of the nullable field (the fallback is
never reached on filtered emissions). -/
def castData {β : Type} (dflt : β) (d : Option β) : β :=
  d.getD dflt

namespace PlanetRepositoryService

/-- `PlanetRepositoryService.getAllPlanets`: pipes the provider's emissions
through `filter((response) => response.data != null)` then
`map((response) => response.data as Planet[])`.  Applied to the list of
emissions the provider pushes, it yields the list of values delivered to
the subscriber. -/
def getAllPlanets (emissions : List (ProviderResult (List Planet))) :
    List (List Planet) :=
  (emissions.filter (fun response => response.data.isSome)).map
    (fun response => castData [] response.data)

/-- `PlanetRepositoryService.addPlanet`: the mutation's push source, piped
through `filter((result) => result.data != null)` then
`map((result) => result.data as Planet)`. -/
def addPlanet (emissions : List (ProviderResult Planet)) : List Planet :=
  (emissions.filter (fun result => result.data.isSome)).map
    (fun result => castData ⟨"", "", ""⟩ result.data)

end PlanetRepositoryService

namespace HeroRepositoryService

/-- `HeroRepositoryService.getHerosByType`: pipes `watchQuery(...).valueChanges`
through `filter((result) => result.data !== null)` then
`map((result) => result.data as Hero[])`. -/
def getHerosByType (emissions : List (ProviderResult (List Hero))) :
    List (List Hero) :=
  (emissions.filter (fun result => result.data.isSome)).map
    (fun result => castData [] result.data)

end HeroRepositoryService

/-! ## Event traces and the guarded subscription machine -/

/-- One scheduled reaction relevant to a guard-attached subscription:
either the underlying push source emits a value, or the Owner's
termination subject fires (`destroy$.next()`). -/
inductive Event (α : Type) where
  | emit (v : α)
  | fire
deriving DecidableEq, Repr

/-- Subscription lifecycle states (§3 of the design): `pending` while
registered with no terminal signal yet, `completed` once terminated. -/
inductive SState where
  | pending
  | completed
deriving DecidableEq, Repr

/-- State of a subscription built by piping an optional `take(n)` and a
`takeUntil(destroy$)` over a push source and subscribing:
`takeRemaining = some k` means a `take` operator with `k` emissions left
sits in the pipe (`none`: no `take` operator, as in
`HeroDetailComponent.ngOnInit`); `delivered` lists the values that have
reached the subscriber, oldest first. -/
structure GuardedSub (α : Type) where
  takeRemaining : Option Nat
  delivered : List α
  sstate : SState
deriving DecidableEq, Repr

/-- A freshly attached subscription: nothing delivered, pending
(`take(0)` would complete at subscription time without delivering). -/
def initSub {α : Type} (limit : Option Nat) : GuardedSub α :=
  { takeRemaining := limit
    delivered := []
    sstate := if limit = some 0 then SState.completed else SState.pending }

/-- The value (if any) the pipe forwards to the subscriber on event `e`:
a completed subscription forwards nothing; `takeUntil` forwards nothing on
the notifier's firing; an emission passes if the `take` budget (when
present) is not exhausted. -/
def forwards {α : Type} (s : GuardedSub α) (e : Event α) : Option α :=
  match s.sstate, e with
  | SState.pending, Event.emit v =>
      match s.takeRemaining with
      | none => some v
      | some 0 => none
      | some (_ + 1) => some v
  | _, _ => none

/-- One step of the guarded subscription on event `e`:
`destroy$.next()` completes a pending subscription via `takeUntil`;
an emission consumes the `take` budget, is appended to `delivered` and,
when it is the last the budget allows, completes the subscription
(`take(n)` completes on its n-th value).  A completed subscription is
inert. -/
def stepSub {α : Type} (s : GuardedSub α) (e : Event α) : GuardedSub α :=
  match s.sstate with
  | SState.completed => s
  | SState.pending =>
      match e with
      | Event.fire => { s with sstate := SState.completed }
      | Event.emit v =>
          match s.takeRemaining with
          | none => { s with delivered := s.delivered ++ [v] }
          | some 0 => { s with sstate := SState.completed }
          | some 1 =>
              { takeRemaining := some 0
                delivered := s.delivered ++ [v]
                sstate := SState.completed }
          | some (n + 2) =>
              { s with
                delivered := s.delivered ++ [v]
                takeRemaining := some (n + 1) }

/-- Fold of the subscription machine over a whole event trace. -/
def runSub {α : Type} (s : GuardedSub α) (es : List (Event α)) : GuardedSub α :=
  es.foldl stepSub s

/-! ## Observer supplied at subscribe time

RxJS `subscribe` accepts either nothing (a bare subscription), a `next`
callback, or an observer object with explicit `next`/`error` handlers. -/

/-- Shape of the argument list of a `.subscribe(...)` call. -/
inductive ObserverKind where
  | bare
  | nextOnly
  | nextError
deriving DecidableEq, Repr

/-- `true` exactly when the subscribe call supplies an explicit `error`
handler, so an error value on the source is handled at the call site
rather than falling through to the global unhandled-error path. -/
def handlesErrorExplicitly : ObserverKind → Bool
  | ObserverKind.nextError => true
  | _ => false

/-! ## PlanetComponent (`planet.component.ts`) -/

namespace PlanetComponent

/-- The literal built in `addPlanet` (lines 33–37):
`{ name: 'Earth', avgTemp: '65', habitable: 'yes' }`. -/
def earth : Planet :=
  { name := "Earth", avgTemp := "65", habitable := "yes" }

/-- The argument list of the `.subscribe()` call on line 43 of
`planet.component.ts`: no observer is passed. -/
def addPlanetObserver : ObserverKind := ObserverKind.bare

/-- Observable state of one `PlanetComponent` instance:
`destroyFired` records whether its private `destroy$` subject has been
nexted; `planetsAssigned` whether `ngOnInit` stored `getAllPlanets()` in
the `planets$` field; `addPlanetSubs` holds one guarded subscription per
`addPlanet` invocation (each piped `take(1), takeUntil(destroy$)`). -/
structure State where
  destroyFired : Bool
  planetsAssigned : Bool
  addPlanetSubs : List (GuardedSub Planet)
deriving DecidableEq, Repr

/-- A freshly constructed component: `destroy$` never fired, no field
assigned, no subscription attached. -/
def construct : State :=
  { destroyFired := false, planetsAssigned := false, addPlanetSubs := [] }

/-- `ngOnInit`: assigns `this.planets$ = this.planetRepository.getAllPlanets()`
(no subscription is opened — the template's async pipe would do that). -/
def ngOnInit (s : State) : State :=
  { s with planetsAssigned := true }

/-- `addPlanet`: builds `earth` and subscribes to
`planetRepository.addPlanet(planet).pipe(take(1), takeUntil(this.destroy$))`
with a bare `.subscribe()`; modelled as attaching a fresh guarded
subscription with a `take(1)` budget. -/
def addPlanet (s : State) : State :=
  { s with addPlanetSubs := s.addPlanetSubs ++ [initSub (some 1)] }

/-- `ngOnDestroy`: calls `this.destroy$.next()` unconditionally.  The
subject broadcasts to every `takeUntil(this.destroy$)` currently
registered, stepping each attached subscription with `Event.fire`
(`Subject.next` on a subject never raises; this is a total function). -/
def ngOnDestroy (s : State) : State :=
  { s with
    destroyFired := true
    addPlanetSubs := s.addPlanetSubs.map (fun sub => stepSub sub Event.fire) }

end PlanetComponent

/-! ## HeroDetailComponent (`hero-detail.component.ts`) -/

namespace HeroDetailComponent

/-- Observable state of one `HeroDetailComponent` instance:
`destroyFired` records whether its private `destroy$` subject has been
nexted; `planets` is the nullable backing field
`private planets: Planet[] | null = null`; `planetsSub` is the manual
subscription opened in `ngOnInit` on `planetRepository.getAllPlanets()`
piped `takeUntil(this.destroy$), tap((planets) => this.planets = planets)`. -/
structure State where
  destroyFired : Bool
  planets : Option (List Planet)
  planetsSub : GuardedSub (List Planet)
deriving DecidableEq, Repr

/-- A freshly constructed component before `ngOnInit`: `planets` is
`null` and the manual subscription does not exist yet (modelled as an
already-completed placeholder that can never deliver). -/
def construct : State :=
  { destroyFired := false
    planets := none
    planetsSub := { takeRemaining := none, delivered := [], sstate := SState.completed } }

/-- `ngOnInit` (lines 44–48): subscribes to `getAllPlanets()` piped
`takeUntil(this.destroy$)` then `tap((planets) => this.planets = planets)`.
No `take` operator is present, so the budget is `none`. -/
def ngOnInit (s : State) : State :=
  { s with planetsSub := initSub none }

/-- The underlying `getAllPlanets` source pushes the value `v`: the pipe
forwards it iff `takeUntil` has not completed the subscription, and the
`tap` — placed after `takeUntil` in the pipe — writes the forwarded value
into `this.planets`. -/
def emitPlanets (s : State) (v : List Planet) : State :=
  { s with
    planetsSub := stepSub s.planetsSub (Event.emit v)
    planets :=
      match forwards s.planetsSub (Event.emit v) with
      | some w => some w
      | none => s.planets }

/-- `ngOnDestroy` (lines 32–34): calls `this.destroy$.next()`
unconditionally, completing the manual subscription through its
`takeUntil`. -/
def ngOnDestroy (s : State) : State :=
  { s with
    destroyFired := true
    planetsSub := stepSub s.planetsSub Event.fire }

end HeroDetailComponent

/-! ## Two independent Owners

Each component instance declares its own
`private readonly destroy$ = new Subject<void>()`
(`planet.component.ts` line 18, `hero-detail.component.ts` line 20), so
the termination subjects and attached subscription sets of two Owners are
disjoint pieces of state.  A world of two Owners carries each one's
subscription set; an event is addressed to exactly one Owner. -/

/-- Identity of one of two coexisting Owners. -/
inductive OwnerId where
  | A
  | B
deriving DecidableEq, Repr

/-- Joint state of two Owners, each with the subscriptions attached via
its own guard. -/
structure TwoOwners (α : Type) where
  subsA : List (GuardedSub α)
  subsB : List (GuardedSub α)
deriving DecidableEq, Repr

/-- An event addressed to one Owner: an emission on one of that Owner's
sources, or the firing of that Owner's own termination subject. -/
structure OwnerEvent (α : Type) where
  owner : OwnerId
  event : Event α
deriving DecidableEq, Repr

/-- Dispatch one addressed event: only the addressed Owner's
subscriptions are stepped; the other Owner's state is carried through
untouched, since no subject or subscription is shared. -/
def stepWorld {α : Type} (w : TwoOwners α) (e : OwnerEvent α) : TwoOwners α :=
  match e.owner with
  | OwnerId.A => { w with subsA := w.subsA.map (fun s => stepSub s e.event) }
  | OwnerId.B => { w with subsB := w.subsB.map (fun s => stepSub s e.event) }

/-- Fold of the two-Owner world over a trace of addressed events. -/
def runWorld {α : Type} (w : TwoOwners α) (es : List (OwnerEvent α)) :
    TwoOwners α :=
  es.foldl stepWorld w

/-! ## Operator chains and composition order

To reason about the order of `take(1)` and `takeUntil(destroy$)` inside
the `.pipe(...)` chain, each operator is also given a denotational
reading over the same traces: emissions are timestamped by their position
in the trace, `take n` keeps the first `n` emissions of its input stream,
and `takeUntil(destroy$)` keeps the emissions timestamped before the
first firing of the subject. -/

/-- Timestamped emissions of a trace, positions counted from `i`. -/
def emitsFrom {α : Type} (i : Nat) : List (Event α) → List (Nat × α)
  | [] => []
  | Event.emit v :: rest => (i, v) :: emitsFrom (i + 1) rest
  | Event.fire :: rest => emitsFrom (i + 1) rest

/-- Position of the first `destroy$.next()` in the trace, counted from
`i`; `none` if the subject never fires. -/
def fireTimeFrom {α : Type} (i : Nat) : List (Event α) → Option Nat
  | [] => none
  | Event.fire :: _ => some i
  | Event.emit _ :: rest => fireTimeFrom (i + 1) rest

/-- Timestamped emissions of a whole trace. -/
def sourceEmits {α : Type} (tr : List (Event α)) : List (Nat × α) :=
  emitsFrom 0 tr

/-- Position of the first firing of the subject in a whole trace. -/
def fireTime {α : Type} (tr : List (Event α)) : Option Nat :=
  fireTimeFrom 0 tr

/-- Predicate of `takeUntil(destroy$)`: an emission survives iff it is
timestamped strictly before the subject's first firing. -/
def beforeFire {α : Type} (ft : Option Nat) (p : Nat × α) : Bool :=
  match ft with
  | none => true
  | some T => p.1 < T

/-- A pipe operator appearing in a `.pipe(...)` chain at the call sites
of this repository. -/
inductive PipeOp where
  | take (n : Nat)
  | takeUntilDestroy
deriving DecidableEq, Repr

/-- Denotation of one pipe operator on a timestamped emission stream,
given the first firing time of the Owner's subject. -/
def applyOp {α : Type} (ft : Option Nat) (op : PipeOp)
    (ems : List (Nat × α)) : List (Nat × α) :=
  match op with
  | PipeOp.take n => ems.take n
  | PipeOp.takeUntilDestroy => ems.filter (beforeFire ft)

/-- Values a `.pipe(op₁, op₂, …).subscribe(...)` chain delivers on trace
`tr`: the operators are applied left to right to the source's emission
stream. -/
def applyChain {α : Type} (ops : List PipeOp) (tr : List (Event α)) :
    List (Nat × α) :=
  ops.foldl (fun ems op => applyOp (fireTime tr) op ems) (sourceEmits tr)

/-- The operator chain written in `PlanetComponent.addPlanet`
(`planet.component.ts` lines 40–41): `take(1)` first, then
`takeUntil(this.destroy$)`. -/
def addPlanetChain : List PipeOp :=
  [PipeOp.take 1, PipeOp.takeUntilDestroy]

/-! ### Bridging the machine and the timed semantics -/

/-- Values the underlying source emits strictly before the first firing
of the Owner's subject. -/
def emitsBeforeFire {α : Type} : List (Event α) → List α
  | [] => []
  | Event.fire :: _ => []
  | Event.emit v :: rest => v :: emitsBeforeFire rest

/-- Calling `destroy$.next()` (via `ngOnDestroy`) `n` times in a row on
one `PlanetComponent` instance. -/
def PlanetComponent.fireTimes (n : Nat) (s : PlanetComponent.State) :
    PlanetComponent.State :=
  match n with
  | 0 => s
  | n + 1 => PlanetComponent.ngOnDestroy (PlanetComponent.fireTimes n s)

/-- The underlying `getAllPlanets` source pushes the values `vs`, in
order, at a `HeroDetailComponent` instance. -/
def HeroDetailComponent.emitAll (s : HeroDetailComponent.State)
    (vs : List (List Planet)) : HeroDetailComponent.State :=
  vs.foldl HeroDetailComponent.emitPlanets s

/-! ### Basic lemmas about the machine -/

theorem runSub_nil {α : Type} (s : GuardedSub α) : runSub s [] = s := rfl

theorem runSub_cons {α : Type} (s : GuardedSub α) (e : Event α)
    (es : List (Event α)) : runSub s (e :: es) = runSub (stepSub s e) es := rfl

theorem runSub_append {α : Type} (s : GuardedSub α) (es fs : List (Event α)) :
    runSub s (es ++ fs) = runSub (runSub s es) fs :=
  List.foldl_append stepSub s es fs

/-- A completed subscription is inert under a single step. -/
theorem stepSub_completed {α : Type} (s : GuardedSub α)
    (h : s.sstate = SState.completed) (e : Event α) : stepSub s e = s := by
  unfold stepSub
  rw [h]

/-- A completed subscription is inert under any further trace. -/
theorem runSub_completed {α : Type} (s : GuardedSub α)
    (h : s.sstate = SState.completed) (es : List (Event α)) : runSub s es = s := by
  induction es with
  | nil => rfl
  | cons e es ih => rw [runSub_cons, stepSub_completed s h e]; exact ih

/-- Stepping on the termination subject's firing always leaves the
subscription completed. -/
theorem stepSub_fire_completed {α : Type} (s : GuardedSub α) :
    (stepSub s Event.fire).sstate = SState.completed := by
  unfold stepSub
  cases h : s.sstate with
  | completed => simpa using h
  | pending => rfl

/-! ### Lemmas about the timed semantics -/

/-- Every timestamp produced by `emitsFrom i` is at least `i`. -/
theorem emitsFrom_ge {α : Type} (tr : List (Event α)) :
    ∀ i, ∀ p ∈ emitsFrom i tr, i ≤ p.1 := by
  induction tr with
  | nil => intro i p hp; simp [emitsFrom] at hp
  | cons e rest ih =>
      intro i p hp
      cases e with
      | emit v =>
          simp only [emitsFrom, List.mem_cons] at hp
          rcases hp with h | h
          · subst h; exact Nat.le_refl i
          · exact Nat.le_of_succ_le (ih (i + 1) p h)
      | fire =>
          simp only [emitsFrom] at hp
          exact Nat.le_of_succ_le (ih (i + 1) p hp)

/-- The first firing time found from position `i` is at least `i`. -/
theorem fireTimeFrom_ge {α : Type} (tr : List (Event α)) :
    ∀ i T, fireTimeFrom i tr = some T → i ≤ T := by
  induction tr with
  | nil => intro i T h; simp [fireTimeFrom] at h
  | cons e rest ih =>
      intro i T h
      cases e with
      | emit v =>
          simp only [fireTimeFrom] at h
          exact Nat.le_of_succ_le (ih (i + 1) T h)
      | fire =>
          simp only [fireTimeFrom, Option.some.injEq] at h
          exact Nat.le_of_eq h

/-- Emissions timestamped after the subject's first firing never pass the
`takeUntil` predicate. -/
theorem filter_beforeFire_after_fire {α : Type} (rest : List (Event α))
    (i : Nat) (l : List (Nat × α))
    (hsub : ∀ p ∈ l, p ∈ emitsFrom (i + 1) rest) :
    l.filter (beforeFire (some i)) = [] := by
  apply List.filter_eq_nil_iff.mpr
  intro p hp
  have hge := emitsFrom_ge rest (i + 1) p (hsub p hp)
  simp only [beforeFire, decide_eq_true_eq]
  omega

/-- On any trace, `take n` then `takeUntil(destroy$)` and
`takeUntil(destroy$)` then `take n` keep exactly the same timestamped
emissions: source timestamps are increasing, so the `takeUntil` cut is a
prefix and commutes with the counting cut of `take`. -/
theorem filter_take_comm {α : Type} (tr : List (Event α)) :
    ∀ i n,
      ((emitsFrom i tr).take n).filter (beforeFire (fireTimeFrom i tr)) =
        ((emitsFrom i tr).filter (beforeFire (fireTimeFrom i tr))).take n := by
  induction tr with
  | nil => intro i n; simp [emitsFrom]
  | cons e rest ih =>
      intro i n
      cases e with
      | emit v =>
          simp only [emitsFrom, fireTimeFrom]
          have hbf : beforeFire (fireTimeFrom (i + 1) rest) (i, v) = true := by
            cases hft : fireTimeFrom (i + 1) rest with
            | none => simp [beforeFire]
            | some T =>
                have := fireTimeFrom_ge rest (i + 1) T hft
                simp only [beforeFire, decide_eq_true_eq]
                omega
          cases n with
          | zero => simp
          | succ n =>
              rw [List.take_succ_cons, List.filter_cons_of_pos hbf,
                List.filter_cons_of_pos hbf, List.take_succ_cons, ih (i + 1) n]
      | fire =>
          simp only [emitsFrom, fireTimeFrom]
          rw [filter_beforeFire_after_fire rest i _
              (fun p hp => List.mem_of_mem_take hp),
            filter_beforeFire_after_fire rest i _ (fun p hp => hp),
            List.take_nil]


/-- Equation: a pending subscription completes on the subject's firing. -/
theorem stepSub_pending_fire {α : Type} (k : Option Nat) (acc : List α) :
    stepSub { takeRemaining := k, delivered := acc, sstate := SState.pending } (Event.fire : Event α) = { takeRemaining := k, delivered := acc, sstate := SState.completed } := rfl

/-- Equation: with an exhausted `take` budget, an emission completes the
subscription without delivering. -/
theorem stepSub_pending_emit_zero {α : Type} (acc : List α) (v : α) :
    stepSub { takeRemaining := some 0, delivered := acc, sstate := SState.pending } (Event.emit v) = { takeRemaining := some 0, delivered := acc, sstate := SState.completed } := rfl

/-- Equation: with a `take` budget of one, an emission is delivered and
the subscription completes (`take(1)` behaviour). -/
theorem stepSub_pending_emit_one {α : Type} (acc : List α) (v : α) :
    stepSub { takeRemaining := some 1, delivered := acc, sstate := SState.pending } (Event.emit v) = { takeRemaining := some 0, delivered := acc ++ [v], sstate := SState.completed } := rfl

/-- Equation: with at least two emissions left in the budget, an emission
is delivered and the budget decreases. -/
theorem stepSub_pending_emit_more {α : Type} (k : Nat) (acc : List α) (v : α) :
    stepSub { takeRemaining := some (k + 2), delivered := acc, sstate := SState.pending } (Event.emit v) = { takeRemaining := some (k + 1), delivered := acc ++ [v], sstate := SState.pending } := rfl

/-- Equation: with no `take` operator in the pipe, a pending subscription
delivers every emission. -/
theorem stepSub_pending_emit_none {α : Type} (acc : List α) (v : α) :
    stepSub { takeRemaining := none, delivered := acc, sstate := SState.pending } (Event.emit v) = { takeRemaining := none, delivered := acc ++ [v], sstate := SState.pending } := rfl

/-- The guarded machine with a `take k` budget delivers exactly the first
`k` source values that precede the subject's firing. -/
theorem runSub_delivered_take {α : Type} (tr : List (Event α)) :
    ∀ (k : Nat) (acc : List α),
      (runSub { takeRemaining := some k, delivered := acc, sstate := SState.pending } tr).delivered = acc ++ (emitsBeforeFire tr).take k := by
  induction tr with
  | nil => intro k acc; simp [runSub, emitsBeforeFire]
  | cons e rest ih =>
      intro k acc
      cases e with
      | fire =>
          rw [runSub_cons, stepSub_pending_fire, runSub_completed _ rfl]
          simp [emitsBeforeFire]
      | emit v =>
          rw [runSub_cons]
          match k with
          | 0 =>
              rw [stepSub_pending_emit_zero, runSub_completed _ rfl]
              simp
          | 1 =>
              rw [stepSub_pending_emit_one, runSub_completed _ rfl]
              simp [emitsBeforeFire]
          | k + 2 =>
              rw [stepSub_pending_emit_more, ih (k + 1) (acc ++ [v])]
              simp [emitsBeforeFire, List.take_succ_cons]

/-- The guarded machine without a `take` operator delivers exactly the
source values that precede the subject's firing. -/
theorem runSub_delivered_none {α : Type} (tr : List (Event α)) :
    ∀ (acc : List α),
      (runSub { takeRemaining := none, delivered := acc, sstate := SState.pending } tr).delivered = acc ++ emitsBeforeFire tr := by
  induction tr with
  | nil => intro acc; simp [runSub, emitsBeforeFire]
  | cons e rest ih =>
      intro acc
      cases e with
      | fire =>
          rw [runSub_cons, stepSub_pending_fire, runSub_completed _ rfl]
          simp [emitsBeforeFire]
      | emit v =>
          rw [runSub_cons, stepSub_pending_emit_none, ih (acc ++ [v])]
          simp [emitsBeforeFire]

/-- The `takeUntil` cut of the timed semantics computes exactly the
emissions preceding the subject's firing. -/
theorem filter_beforeFire_eq_emitsBeforeFire {α : Type} (tr : List (Event α)) :
    ∀ i,
      ((emitsFrom i tr).filter (beforeFire (fireTimeFrom i tr))).map Prod.snd = emitsBeforeFire tr := by
  induction tr with
  | nil => intro i; simp [emitsFrom, emitsBeforeFire]
  | cons e rest ih =>
      intro i
      cases e with
      | emit v =>
          simp only [emitsFrom, fireTimeFrom, emitsBeforeFire]
          have hbf : beforeFire (fireTimeFrom (i + 1) rest) (i, v) = true := by
            cases hft : fireTimeFrom (i + 1) rest with
            | none => simp [beforeFire]
            | some T =>
                have := fireTimeFrom_ge rest (i + 1) T hft
                simp only [beforeFire, decide_eq_true_eq]
                omega
          rw [List.filter_cons_of_pos hbf, List.map_cons, ih (i + 1)]
      | fire =>
          simp only [emitsFrom, fireTimeFrom, emitsBeforeFire]
          rw [filter_beforeFire_after_fire rest i _ (fun p hp => hp)]
          rfl

/-! ### Further helper lemmas -/

/-- Unfolding `initSub` at a positive `take` budget. -/
theorem initSub_some_succ {α : Type} (n : Nat) :
    (initSub (some (n + 1)) : GuardedSub α) = { takeRemaining := some (n + 1), delivered := [], sstate := SState.pending } := by
  simp [initSub]

/-- Unfolding `initSub` when no `take` operator is present. -/
theorem initSub_no_take {α : Type} :
    (initSub none : GuardedSub α) = { takeRemaining := none, delivered := [], sstate := SState.pending } := by
  simp [initSub]

/-- The filter-then-map pipe of the repository services delivers exactly
the non-null `data` payloads, in emission order. -/
theorem filter_map_castData {β : Type} (dflt : β) (l : List (ProviderResult β)) :
    (l.filter (fun r => r.data.isSome)).map (fun r => castData dflt r.data) = l.filterMap (fun r => r.data) := by
  induction l with
  | nil => rfl
  | cons r rest ih =>
      simp only [castData] at ih
      cases h : r.data with
      | none => simp [List.filter_cons, List.filterMap_cons, h, castData, ih]
      | some b => simp [List.filter_cons, List.filterMap_cons, h, castData, ih]

/-- Unfolding the two-operator chain `take n` then `takeUntil`. -/
theorem applyChain_take_until {α : Type} (n : Nat) (tr : List (Event α)) :
    applyChain [PipeOp.take n, PipeOp.takeUntilDestroy] tr = ((sourceEmits tr).take n).filter (beforeFire (fireTime tr)) := rfl

/-- Unfolding the two-operator chain `takeUntil` then `take n`. -/
theorem applyChain_until_take {α : Type} (n : Nat) (tr : List (Event α)) :
    applyChain [PipeOp.takeUntilDestroy, PipeOp.take n] tr = ((sourceEmits tr).filter (beforeFire (fireTime tr))).take n := rfl

/-- The two orders of `take n` and `takeUntil(destroy$)` in a pipe chain
deliver the same timestamped emissions on every trace. -/
theorem applyChain_order_comm {α : Type} (n : Nat) (tr : List (Event α)) :
    applyChain [PipeOp.take n, PipeOp.takeUntilDestroy] tr = applyChain [PipeOp.takeUntilDestroy, PipeOp.take n] tr := by
  rw [applyChain_take_until, applyChain_until_take]
  simpa [sourceEmits, fireTime] using filter_take_comm tr 0 n

/-- Coherence of the two readings: the state machine of a
`pipe(take n, takeUntil(destroy$))` subscription delivers exactly the
values of the denotational chain. -/
theorem runSub_delivered_eq_applyChain {α : Type} (n : Nat) (tr : List (Event α)) :
    (runSub (initSub (some n)) tr).delivered = (applyChain [PipeOp.take n, PipeOp.takeUntilDestroy] tr).map Prod.snd := by
  rw [applyChain_order_comm, applyChain_until_take, List.map_take]
  have hbf := filter_beforeFire_eq_emitsBeforeFire tr 0
  rw [show fireTime tr = fireTimeFrom 0 tr from rfl,
    show sourceEmits tr = emitsFrom 0 tr from rfl, hbf]
  cases n with
  | zero =>
      rw [runSub_completed _ (by simp [initSub])]
      simp [initSub]
  | succ n =>
      rw [initSub_some_succ, runSub_delivered_take tr (n + 1) []]
      simp

/-- If no emission occurs before (or at) the first firing, nothing
precedes the fire. -/
theorem emitsBeforeFire_no_emit {α : Type} (pre post : List (Event α))
    (hpre : ∀ v, Event.emit v ∉ pre) :
    emitsBeforeFire (pre ++ Event.fire :: post) = [] := by
  cases pre with
  | nil => rfl
  | cons e pre =>
      cases e with
      | emit v => exact absurd (List.mem_cons_self _ _) (hpre v)
      | fire => rfl

/-! ## The claims -/

/-- C1: for a mutation subscription attached with an emission limit of 1
(`PlanetComponent.addPlanet` piping `take(1)` before
`takeUntil(destroy$)`), if the underlying push source emits two values in
sequence, only the first reaches the subscriber, and the subscription is
already completed right after the first emitted value, with no firing of
the guard involved. -/
theorem claim_C1_single_result_write (v₁ v₂ : Planet)
    (post : List (Event Planet)) :
    (runSub (initSub (some 1)) (Event.emit v₁ :: Event.emit v₂ :: post)).delivered = [v₁] ∧
    (runSub (initSub (some 1)) [Event.emit v₁]).sstate = SState.completed := by
  constructor
  · rw [initSub_some_succ, runSub_delivered_take]
    simp [emitsBeforeFire]
  · rw [initSub_some_succ, runSub_cons, stepSub_pending_emit_one, runSub_nil]

/-- C2: for a mutation subscription attached via `take(1)` plus
`takeUntil(destroy$)` whose underlying source never emits, the firing of
the Termination Signal (`ngOnDestroy` calling `destroy$.next()`) moves
the subscription to `completed` at that point, with zero values ever
delivered to the subscriber. -/
theorem claim_C2_slow_write_cancellation (pre post : List (Event Planet))
    (hpre : ∀ v, Event.emit v ∉ pre) (_hpost : ∀ v, Event.emit v ∉ post) :
    (runSub (initSub (some 1)) (pre ++ [Event.fire])).sstate = SState.completed ∧
    (runSub (initSub (some 1)) (pre ++ Event.fire :: post)).delivered = [] := by
  constructor
  · rw [runSub_append, runSub_cons, runSub_nil]
    exact stepSub_fire_completed _
  · rw [initSub_some_succ, runSub_delivered_take,
      emitsBeforeFire_no_emit pre post hpre]
    rfl

/-- Witness for C2 at the concrete one-event trace `[destroy$.next()]`. -/
theorem claim_C2_slow_write_cancellation_witness :
    (runSub (initSub (some 1)) (([] : List (Event Planet)) ++ [Event.fire])).sstate = SState.completed ∧
    (runSub (initSub (some 1)) (([] : List (Event Planet)) ++ Event.fire :: [])).delivered = [] :=
  claim_C2_slow_write_cancellation [] []
    (fun v h => by simp at h) (fun v h => by simp at h)

/-- C3: for every guard-attached subscription (any `take` budget,
covering both `HeroDetailComponent.ngOnInit` and
`PlanetComponent.addPlanet`), the run over a trace is unchanged by
everything that follows the Termination Signal's firing — no value
emitted after the firing is ever delivered — and the subscription does
not survive the firing: it is `completed` from that point on. -/
theorem claim_C3_no_post_destruction_delivery {α : Type}
    (limit : Option Nat) (pre post : List (Event α)) :
    runSub (initSub limit) (pre ++ Event.fire :: post) = runSub (initSub limit) (pre ++ [Event.fire]) ∧
    (runSub (initSub limit) (pre ++ [Event.fire])).sstate = SState.completed := by
  have hc : (runSub (initSub limit) (pre ++ [Event.fire])).sstate = SState.completed := by
    rw [runSub_append, runSub_cons, runSub_nil]
    exact stepSub_fire_completed _
  constructor
  · have hsplit : pre ++ Event.fire :: post = (pre ++ [Event.fire]) ++ post := by
      simp
    rw [hsplit, runSub_append, runSub_completed _ hc]
  · exact hc

/-- A second firing of the subject is a no-op on a subscription. -/
theorem stepSub_fire_idem {α : Type} (s : GuardedSub α) :
    stepSub (stepSub s Event.fire) Event.fire = stepSub s Event.fire :=
  stepSub_completed _ (stepSub_fire_completed s) _

/-- `PlanetComponent.ngOnDestroy` is idempotent on the whole component
state. -/
theorem ngOnDestroy_idem (s : PlanetComponent.State) :
    PlanetComponent.ngOnDestroy (PlanetComponent.ngOnDestroy s) = PlanetComponent.ngOnDestroy s := by
  simp [PlanetComponent.ngOnDestroy, List.map_map, Function.comp,
    stepSub_fire_idem]

/-- C4: firing a guard's Termination Signal is idempotent: for every
`N ≥ 1`, invoking `destroy$.next()` (via `ngOnDestroy`) `N` times on a
`PlanetComponent` instance yields the same terminal state of the guard
flag and of every attached subscription as invoking it once; the model
is a total function, so no error is ever raised by the repeated
invocations. -/
theorem claim_C4_idempotent_fire (s : PlanetComponent.State) (n : Nat) :
    PlanetComponent.fireTimes (n + 1) s = PlanetComponent.fireTimes 1 s := by
  induction n with
  | zero => rfl
  | succ n ih =>
      show PlanetComponent.ngOnDestroy (PlanetComponent.fireTimes (n + 1) s) = PlanetComponent.fireTimes 1 s
      rw [ih]
      show PlanetComponent.ngOnDestroy (PlanetComponent.ngOnDestroy (PlanetComponent.fireTimes 0 s)) = _
      rw [ngOnDestroy_idem]
      rfl

/-- C5: Owners are independent: over any trace of events all addressed
to Owner A — in particular the firing of A's own Termination Signal —
the state of every subscription attached to Owner B is unchanged; no
subject or subscription is shared between the two Owners (each holds its
own field). -/
theorem claim_C5_independent_owners {α : Type} (w : TwoOwners α)
    (es : List (OwnerEvent α)) (h : ∀ e ∈ es, e.owner = OwnerId.A) :
    (runWorld w es).subsB = w.subsB := by
  induction es generalizing w with
  | nil => rfl
  | cons e es ih =>
      have he : e.owner = OwnerId.A := h e (List.mem_cons_self _ _)
      have hstep : (stepWorld w e).subsB = w.subsB := by
        unfold stepWorld
        rw [he]
      have hrest : ∀ e2 ∈ es, e2.owner = OwnerId.A :=
        fun e2 he2 => h e2 (List.mem_cons_of_mem _ he2)
      show (runWorld (stepWorld w e) es).subsB = w.subsB
      rw [ih (stepWorld w e) hrest, hstep]

/-- Witness for C5: a pending subscription of Owner B is untouched by
Owner A's `destroy$.next()`. -/
theorem claim_C5_independent_owners_witness :
    (runWorld { subsA := [initSub (some 1)], subsB := [initSub none] } [{ owner := OwnerId.A, event := (Event.fire : Event Planet) }]).subsB = [initSub none] :=
  claim_C5_independent_owners _ _ (by decide)

/-- C6: every value the query operations (`getAllPlanets`,
`getHerosByType`) deliver to a subscriber is a usable response: the
provider's transitional emissions with a null `data` field are filtered
out and never delivered, and what is delivered is exactly the sequence
of `data` payloads of the non-null emissions (`List.filterMap` over the
`data` field). -/
theorem claim_C6_null_data_filtered
    (es : List (ProviderResult (List Planet)))
    (hs : List (ProviderResult (List Hero))) :
    PlanetRepositoryService.getAllPlanets es = es.filterMap (fun r => r.data) ∧
    HeroRepositoryService.getHerosByType hs = hs.filterMap (fun r => r.data) :=
  ⟨filter_map_castData [] es, filter_map_castData [] hs⟩

/-- C7 counterexample: the claim that the mutation subscription at
`PlanetComponent.addPlanet` supplies explicit `next`/`error` handling is
false on the code — line 43 reads `.subscribe()` with no observer
argument, so no explicit error handler is present at the call site. -/
theorem claim_C7_counterexample :
    handlesErrorExplicitly PlanetComponent.addPlanetObserver = false :=
  rfl

/-- C7 (amended): when the mutation's push source emits an error value,
the `PlanetComponent.addPlanet` call site does not handle it explicitly:
the subscription is bare (`.subscribe()` with no `next`/`error`
handlers), so an error value falls through to the default unhandled-error
path instead of being logged by the Owner. -/
theorem claim_C7_amended_bare_subscription :
    PlanetComponent.addPlanetObserver = ObserverKind.bare ∧
    handlesErrorExplicitly PlanetComponent.addPlanetObserver ≠ true :=
  ⟨rfl, by decide⟩

/-- C8: every Owner's destruction path fires the Termination Signal
unconditionally: for every state of a `PlanetComponent` and of a
`HeroDetailComponent` — including states with zero attached
subscriptions, such as `PlanetComponent.construct` — running
`ngOnDestroy` leaves `destroy$` fired. -/
theorem claim_C8_unconditional_fire
    (p : PlanetComponent.State) (h : HeroDetailComponent.State) :
    (PlanetComponent.ngOnDestroy p).destroyFired = true ∧
    (HeroDetailComponent.ngOnDestroy h).destroyFired = true ∧
    (PlanetComponent.ngOnDestroy PlanetComponent.construct).destroyFired = true ∧
    (HeroDetailComponent.ngOnDestroy HeroDetailComponent.construct).destroyFired = true :=
  ⟨rfl, rfl, rfl, rfl⟩

/-- C9: in the mutation composition chain of `PlanetComponent.addPlanet`
the emission-limit operator `take(1)` comes before
`takeUntil(destroy$)`, and the two orderings of the operators are
behaviorally equivalent: on every trace (in particular the
first-emission and the destroy-before-emission scenarios) the two chains
keep the same emissions, and the values a `take(1)`-budgeted guarded
subscription delivers coincide with those of its chain. -/
theorem claim_C9_composition_order :
    addPlanetChain = [PipeOp.take 1, PipeOp.takeUntilDestroy] ∧
    (∀ (tr : List (Event Planet)),
      applyChain addPlanetChain tr = applyChain [PipeOp.takeUntilDestroy, PipeOp.take 1] tr) ∧
    (∀ (tr : List (Event Planet)),
      (runSub (initSub (some 1)) tr).delivered = (applyChain addPlanetChain tr).map Prod.snd) :=
  ⟨rfl, fun tr => applyChain_order_comm 1 tr,
    fun tr => runSub_delivered_eq_applyChain 1 tr⟩

/-- A completed manual subscription makes an emission of the underlying
`getAllPlanets` source a no-op on the whole component state: the
`takeUntil` placed before the `tap` swallows the value, so the `tap`
never writes `this.planets`. -/
theorem emitPlanets_completed (s : HeroDetailComponent.State)
    (h : s.planetsSub.sstate = SState.completed) (v : List Planet) :
    HeroDetailComponent.emitPlanets s v = s := by
  have hf : forwards s.planetsSub (Event.emit v) = none := by
    unfold forwards
    rw [h]
  unfold HeroDetailComponent.emitPlanets
  rw [stepSub_completed _ h, hf]

/-- A completed manual subscription makes any sequence of emissions a
no-op on the whole component state. -/
theorem emitAll_completed (vs : List (List Planet)) :
    ∀ s : HeroDetailComponent.State, s.planetsSub.sstate = SState.completed →
      HeroDetailComponent.emitAll s vs = s := by
  induction vs with
  | nil => intro s _; rfl
  | cons v vs ih =>
      intro s h
      show HeroDetailComponent.emitAll (HeroDetailComponent.emitPlanets s v) vs = s
      rw [emitPlanets_completed s h v]
      exact ih s h

/-- C10: after `HeroDetailComponent`'s Termination Signal has fired
(`ngOnDestroy` ran `destroy$.next()`), the `planets` field is never
modified again: `ngOnDestroy` itself leaves the field untouched, and any
sequence of later emissions of the underlying `getAllPlanets` source
leaves the whole component state — in particular `planets` — unchanged,
because `takeUntil(destroy$)` precedes the `tap` that writes the field. -/
theorem claim_C10_planets_frozen_after_destroy
    (s : HeroDetailComponent.State) (vs : List (List Planet)) :
    HeroDetailComponent.emitAll (HeroDetailComponent.ngOnDestroy s) vs = HeroDetailComponent.ngOnDestroy s ∧
    (HeroDetailComponent.ngOnDestroy s).planets = s.planets :=
  ⟨emitAll_completed vs _ (stepSub_fire_completed s.planetsSub), rfl⟩
